import Mathlib

/-!
Shallow embedding of `src/down.py` ("Cloud-PC-Terminal"), a sequential
pipeline that downloads an encrypted DASH stream with yt-dlp, decrypts the
tracks with mp4decrypt, and muxes them with ffmpeg.

The external world (PATH resolution, subprocesses, the filesystem effects of
the invoked tools) is modelled by an `Env` oracle; the script's own control
flow, argument assembly, file-existence checks and its one direct filesystem
write (`shutil.copy2`) are translated line by line from the source.

Paths are modelled structurally: every file the script touches lives either
in the temporary directory created by `tempfile.mkdtemp` (`FPath.tmp name`)
or in the current working directory (`FPath.cwd name`).  Informational
prints to stdout are not modelled; diagnostics to stderr are recorded as
structured `Msg` values (one constructor per distinct source diagnostic).
-/

namespace DownPy

/-- `MPD` constant, src/down.py line 31. -/
def MPD : String := "https://media-cdn.classplusapp.com/drm/wv/65af90731ffd3734c4a70d00/e80761cf731ebf4e82c29de281fc5bd1/e80761cf731ebf4e82c29de281fc5bd1.mpd?key=162856104&hdnts=URLPrefix=aHR0cHM6Ly9tZWRpYS1jZG4uY2xhc3NwbHVzYXBwLmNvbS9kcm0vd3YvNjVhZjkwNzMxZmZkMzczNGM0YTcwZDAwL2U4MDc2MWNmNzMxZWJmNGU4MmMyOWRlMjgxZmM1YmQx~Expires=1758283526~hmac=f31053c294bd6db8695671d174a06a6961085e774b0a09ff7d3553d8a3d31d87"

/-- `KEYS` list of KID:KEY strings, src/down.py lines 34-40. -/
def KEYS : List String :=
  [ "833cac330e3f5243bb92b6b1a1f0b830:33eb631c7784af4a6cc9267ed8cbffb0",
    "af975c9bf15c521e8ca7946fa5d846eb:b5c26089aca357bfcbff3d6b4a0480a9",
    "4b4c8d2ef8885b7db7e8cbaa35157229:f860fe5061896ee121bf09b8050fea67",
    "6f5bc63cfb4c527983544e2be87c3ee3:b626a566974683745075058387989f9b",
    "829e92634faa53d3825d17710a11d8e7:68287246dd16c51cc36232d577f4108a" ]

/-- `OUTPUT` constant, src/down.py line 43. -/
def OUTPUT : String := "final_output.mp4"

/-- The three external executables resolved by `which_or_exit` (lines 64-66).
A call record is tagged with the resolved variable (`yt_dlp`, `mp4decrypt`,
`ffmpeg`) that supplied its argv head. -/
inductive Tool
  | ytdlp
  | mp4decrypt
  | ffmpeg
deriving DecidableEq, Repr

/-- A file path: either a direct child of the temporary directory created at
line 69, or a file in the current working directory (only `OUTPUT`). -/
inductive FPath
  | tmp (name : String)
  | cwd (name : String)
deriving DecidableEq, Repr

/-- The basename of a path, as in `p.name` of `pathlib` (used at line 117). -/
def FPath.name : FPath → String
  | FPath.tmp n => n
  | FPath.cwd n => n

/-- Rendering a path to the string handed to a subprocess (`str(video_enc)`
etc.); the temporary directory's name is supplied by the environment. -/
def FPath.render (tmpdir : String) : FPath → String
  | FPath.tmp n => tmpdir ++ "/" ++ n
  | FPath.cwd n => n

/-- `video_enc` (line 72). -/
def videoEncP : FPath := FPath.tmp "video.encrypted.mp4"

/-- `audio_enc` (line 73). -/
def audioEncP : FPath := FPath.tmp "audio.encrypted.m4a"

/-- `video_dec` (line 74). -/
def videoDecP : FPath := FPath.tmp "video.decrypted.mp4"

/-- `audio_dec` (line 75). -/
def audioDecP : FPath := FPath.tmp "audio.decrypted.m4a"

/-- The filesystem: an association list from paths to file contents.  Lookup
takes the most recent entry for a path. -/
abbrev FS := List (FPath × String)

/-- Contents of a file, `none` when absent. -/
def FS.find : FS → FPath → Option String
  | [], _ => none
  | e :: rest, p => if e.1 = p then some e.2 else FS.find rest p

/-- `Path.exists()` of the source. -/
def FS.hasFile (fs : FS) (p : FPath) : Bool := (FS.find fs p).isSome

/-- The script's only direct write, `shutil.copy2(video_dec, OUTPUT)` at line
133, creates/overwrites a file; modelled by prepending (lookup is leftmost). -/
def FS.set (fs : FS) (p : FPath) (v : String) : FS := (p, v) :: fs

/-- Diagnostics the script prints to stderr, one constructor per distinct
`print(..., file=sys.stderr)` in the source (lines 51, 97, 123, 135, 143,
147), plus the interpreter's own message for a module-load failure. -/
inductive Msg
  | toolMissing (cmd : String)
  | noVideoEnc
  | noCandidate
  | noVideoDec
  | cmdFailed (rc : Nat)
  | unexpected
  | loadError
deriving DecidableEq, Repr

/-- One subprocess invocation: the tool variable used for the argv head, the
full argv, and the return code the environment gave it. -/
structure Call where
  tool : Tool
  argv : List String
  rc : Nat
deriving DecidableEq, Repr

/-- Observable outcome of a run: process exit code, final filesystem, the
subprocess invocations in order, the stderr diagnostics in order, and
whether `tempfile.mkdtemp` (line 69) was reached. -/
structure Result where
  exitCode : Nat
  fs : FS
  calls : List Call
  stderr : List Msg
  tmpCreated : Bool
deriving Repr

/-- The external world: `shutil.which`, the behaviour of each invoked
subprocess (return code and filesystem effect), and the name `mkdtemp`
chooses for the temporary directory. -/
structure Env where
  which : String → Option String
  exec : Tool → List String → FS → Nat × FS
  tmpdir : String

/-- Argv of step 1, `run([yt_dlp, "-F", MPD], stdout=None)` (line 81). -/
def listArgv (yt : String) : List String := [yt, "-F", MPD]

/-- Argv of step 2, the bestvideo download (line 89). -/
def vidArgv (yt tmpdir : String) : List String :=
  [yt, "-f", "bestvideo", "-o", FPath.render tmpdir videoEncP, MPD]

/-- Argv of step 3, the bestaudio download (line 93). -/
def audArgv (yt tmpdir : String) : List String :=
  [yt, "-f", "bestaudio", "-o", FPath.render tmpdir audioEncP, MPD]

/-- `key_args` assembled from `KEYS` (lines 104-106). -/
def keyArgs : List String := KEYS.foldl (fun a k => a ++ ["--key", k]) []

/-- Argv of a decryption invocation, `[mp4decrypt] + key_args + [inp, outp]`
(lines 110, 113, 121). -/
def decArgv (mp4decrypt inp outp : String) : List String :=
  [mp4decrypt] ++ keyArgs ++ [inp, outp]

/-- Argv of the remux invocation (line 129). -/
def mergeArgv (ffmpeg v a : String) : List String :=
  [ffmpeg, "-y", "-i", v, "-i", a, "-c", "copy", OUTPUT]

/-- The glob pattern `*.mp4` on a basename, as matched by `tmp.glob("*.mp4")`
(line 116); modelled as a suffix test on the character list. -/
def matchesStarMp4 (n : String) : Bool := List.isSuffixOf (String.data ".mp4") (String.data n)

/-- `list(tmp.glob("*.mp4"))` (line 116): the direct children of the
temporary directory whose basename matches `*.mp4`, in filesystem order. -/
def globMp4 (fs : FS) : List FPath :=
  (fs.filter fun e =>
    match e.1 with
    | FPath.tmp n => matchesStarMp4 n
    | FPath.cwd _ => false).map (fun e => e.1)

/-- `[p for p in merged_candidates if p.name != video_dec.name]` (line 117). -/
def mergedCandidates (fs : FS) : List FPath :=
  (globMp4 fs).filter (fun p => p.name ≠ videoDecP.name)

/-- Step 5 (lines 126-140): merge with ffmpeg when both decrypted tracks
exist, copy the decrypted video alone to `OUTPUT` when audio is absent,
otherwise fail.  A non-zero ffmpeg return code propagates to the
`CalledProcessError` handler (lines 142-145). -/
def mergeStep (env : Env) (ffmpeg tmpdir : String) (fs : FS) (calls : List Call)
    (errs : List Msg) : Result :=
  if FS.hasFile fs videoDecP && FS.hasFile fs audioDecP then
    let argv := mergeArgv ffmpeg (FPath.render tmpdir videoDecP) (FPath.render tmpdir audioDecP)
    let r := env.exec Tool.ffmpeg argv fs
    let calls2 := calls ++ [⟨Tool.ffmpeg, argv, r.1⟩]
    if r.1 ≠ 0 then ⟨1, r.2, calls2, errs ++ [Msg.cmdFailed r.1], true⟩
    else ⟨0, r.2, calls2, errs, true⟩
  else if FS.hasFile fs videoDecP && ! FS.hasFile fs audioDecP then
    match FS.find fs videoDecP with
    | some c => ⟨0, FS.set fs (FPath.cwd OUTPUT) c, calls, errs, true⟩
    | none => ⟨1, fs, calls, errs ++ [Msg.unexpected], true⟩
  else ⟨1, fs, calls, errs ++ [Msg.noVideoDec], true⟩

/-- Lines 111-124: decrypt the audio track when the encrypted audio file
exists; otherwise search the temporary directory for a substitute `*.mp4`
candidate and decrypt the first one onto `video_dec`, failing when there is
none.  Continues into `mergeStep`. -/
def decryptAudioPart (env : Env) (mp4decrypt ffmpeg tmpdir : String) (fs : FS)
    (calls : List Call) (errs : List Msg) : Result :=
  if FS.hasFile fs audioEncP then
    let argv := decArgv mp4decrypt (FPath.render tmpdir audioEncP) (FPath.render tmpdir audioDecP)
    let r := env.exec Tool.mp4decrypt argv fs
    let calls2 := calls ++ [⟨Tool.mp4decrypt, argv, r.1⟩]
    if r.1 ≠ 0 then ⟨1, r.2, calls2, errs ++ [Msg.cmdFailed r.1], true⟩
    else mergeStep env ffmpeg tmpdir r.2 calls2 errs
  else
    match mergedCandidates fs with
    | [] => ⟨1, fs, calls, errs ++ [Msg.noCandidate], true⟩
    | c0 :: _ =>
      let argv := decArgv mp4decrypt (FPath.render tmpdir c0) (FPath.render tmpdir videoDecP)
      let r := env.exec Tool.mp4decrypt argv fs
      let calls2 := calls ++ [⟨Tool.mp4decrypt, argv, r.1⟩]
      if r.1 ≠ 0 then ⟨1, r.2, calls2, errs ++ [Msg.cmdFailed r.1], true⟩
      else mergeStep env ffmpeg tmpdir r.2 calls2 errs

/-- Step 4 (lines 108-110) and its continuation: decrypt the video track when
the encrypted video file exists, then handle the audio side. -/
def decryptStep (env : Env) (mp4decrypt ffmpeg tmpdir : String) (fs : FS)
    (calls : List Call) (errs : List Msg) : Result :=
  if FS.hasFile fs videoEncP then
    let argv := decArgv mp4decrypt (FPath.render tmpdir videoEncP) (FPath.render tmpdir videoDecP)
    let r := env.exec Tool.mp4decrypt argv fs
    let calls2 := calls ++ [⟨Tool.mp4decrypt, argv, r.1⟩]
    if r.1 ≠ 0 then ⟨1, r.2, calls2, errs ++ [Msg.cmdFailed r.1], true⟩
    else decryptAudioPart env mp4decrypt ffmpeg tmpdir r.2 calls2 errs
  else decryptAudioPart env mp4decrypt ffmpeg tmpdir fs calls errs

/-- `main()` (lines 62-148).  Tool checks (`which_or_exit`), temporary
directory creation, the ignored format-listing step, the two downloads with
fatal `CalledProcessError` handling, the encrypted-video existence check,
then the decrypt and merge steps.  `sys.exit(1)` raises `SystemExit`, which
neither `except` clause catches, so each `sys.exit(1)` ends the process with
code 1; a normal return ends it with code 0. -/
def main (env : Env) (fs0 : FS) : Result :=
  match env.which "yt-dlp" with
  | none => ⟨1, fs0, [], [Msg.toolMissing "yt-dlp"], false⟩
  | some yt =>
  match env.which "mp4decrypt" with
  | none => ⟨1, fs0, [], [Msg.toolMissing "mp4decrypt"], false⟩
  | some mp4 =>
  match env.which "ffmpeg" with
  | none => ⟨1, fs0, [], [Msg.toolMissing "ffmpeg"], false⟩
  | some ff =>
  let tmpdir := env.tmpdir
  let r1 := env.exec Tool.ytdlp (listArgv yt) fs0
  let calls1 : List Call := [⟨Tool.ytdlp, listArgv yt, r1.1⟩]
  let r2 := env.exec Tool.ytdlp (vidArgv yt tmpdir) r1.2
  let calls2 := calls1 ++ [⟨Tool.ytdlp, vidArgv yt tmpdir, r2.1⟩]
  if r2.1 ≠ 0 then ⟨1, r2.2, calls2, [Msg.cmdFailed r2.1], true⟩
  else
  let r3 := env.exec Tool.ytdlp (audArgv yt tmpdir) r2.2
  let calls3 := calls2 ++ [⟨Tool.ytdlp, audArgv yt tmpdir, r3.1⟩]
  if r3.1 ≠ 0 then ⟨1, r3.2, calls3, [Msg.cmdFailed r3.1], true⟩
  else
  if ! FS.hasFile r3.2 videoEncP then ⟨1, r3.2, calls3, [Msg.noVideoEnc], true⟩
  else decryptStep env mp4 ff tmpdir r3.2 calls3 []

/-- The stray last line of the module, src/down.py line 152. -/
def strayLine : String := "git push origin main"

/-- Split a character list on spaces into words. -/
def splitSp : List Char → List Char → List (List Char)
  | [], acc => if acc = [] then [] else [acc.reverse]
  | c :: rest, acc =>
    if c = ' ' then
      (if acc = [] then splitSp rest [] else acc.reverse :: splitSp rest [])
    else splitSp rest (c :: acc)

/-- The space-separated tokens of a line. -/
def tokensOf (s : String) : List String :=
  (splitSp (String.data s) []).map (fun cs => String.mk cs)

/-- A character allowed inside a Python NAME token. -/
def isIdentChar (c : Char) : Bool := c.isAlpha || c.isDigit || c = '_'

/-- Whether a token is a Python NAME: a letter or underscore followed by
identifier characters. -/
def isIdentTok (s : String) : Bool :=
  match String.data s with
  | [] => false
  | c :: rest => (c.isAlpha || c = '_') && rest.all isIdentChar

/-- Python's keywords together with its soft keywords. -/
def pythonKeywords : List String :=
  [ "False", "None", "True", "and", "as", "assert", "async", "await",
    "break", "class", "continue", "def", "del", "elif", "else", "except",
    "finally", "for", "from", "global", "if", "import", "in", "is",
    "lambda", "nonlocal", "not", "or", "pass", "raise", "return", "try",
    "while", "with", "yield", "match", "case", "type" ]

/-- Modelled from the Python language definition (the interpreter is external
to this repository): a logical line consisting of two or more bare NAME
tokens whose first token is no (soft) keyword cannot be parsed as a Python
statement — it is neither an expression, an assignment, nor any keyword
construct — so compiling a module containing such a top-level line raises
`SyntaxError`. -/
def bareNameSeqError (line : String) : Bool :=
  match tokensOf line with
  | t1 :: t2 :: rest =>
    ((t1 :: t2 :: rest).all isIdentTok) && ! pythonKeywords.contains t1
  | _ => false

/-- Modelled from the Python language definition: the interpreter parses the
whole module before executing any statement of it, so a module whose text
fails to parse aborts with `SyntaxError` (process exit code 1) before the
`if __name__ == "__main__": main()` guard (lines 150-151) can run `main`. -/
def runScript (env : Env) (fs0 : FS) : Result :=
  if bareNameSeqError strayLine then ⟨1, fs0, [], [Msg.loadError], false⟩
  else main env fs0

/-- A filesystem extends another when every file of the first is present in
the second. -/
def FsIncl (a b : FS) : Prop := ∀ p, FS.hasFile a p = true → FS.hasFile b p = true

/-- An environment whose subprocesses never remove files: each `exec` result
extends its input filesystem.  (What the real tools do on a healthy run.) -/
def FsMono (env : Env) : Prop := ∀ t a fs, FsIncl fs (env.exec t a fs).2

/-- A concrete PATH where all three tools resolve. -/
def whichC : String → Option String := fun s =>
  if s = "yt-dlp" then some "yt"
  else if s = "mp4decrypt" then some "m"
  else if s = "ffmpeg" then some "f"
  else none

/-- The listing argv under `whichC` and temporary directory `T`. -/
def listArgvC : List String := listArgv "yt"

/-- The video-download argv under `whichC` and temporary directory `T`. -/
def vidArgvC : List String := vidArgv "yt" "T"

/-- The audio-download argv under `whichC` and temporary directory `T`. -/
def audArgvC : List String := audArgv "yt" "T"

/-- The video-decrypt argv under `whichC` and temporary directory `T`. -/
def decVidArgvC : List String :=
  decArgv "m" (FPath.render "T" videoEncP) (FPath.render "T" videoDecP)

/-- The audio-decrypt argv under `whichC` and temporary directory `T`. -/
def decAudArgvC : List String :=
  decArgv "m" (FPath.render "T" audioEncP) (FPath.render "T" audioDecP)

/-- The remux argv under `whichC` and temporary directory `T`. -/
def mergeArgvC : List String :=
  mergeArgv "f" (FPath.render "T" videoDecP) (FPath.render "T" audioDecP)

/-- Files each subprocess of a fully healthy run creates. -/
def extrasOK (a : List String) : FS :=
  if a = vidArgvC then [(videoEncP, "videodata")]
  else if a = audArgvC then [(audioEncP, "audiodata")]
  else if a = decVidArgvC then [(videoDecP, "videoplain")]
  else if a = decAudArgvC then [(audioDecP, "audioplain")]
  else if a = mergeArgvC then [(FPath.cwd OUTPUT, "merged")]
  else []

/-- A healthy environment: every tool resolves, every subprocess returns 0
and adds exactly its expected output file. -/
def envOK : Env := ⟨whichC, fun _ a fs => (0, fs ++ extrasOK a), "T"⟩

/-- Files created in a run whose audio download succeeds as a process but
writes no audio file (the "maybe audio is muxed" situation of line 100). -/
def extrasNoAudio (a : List String) : FS :=
  if a = vidArgvC then [(videoEncP, "videodata")]
  else if a = decVidArgvC then [(videoDecP, "videoplain")]
  else []

/-- An environment exercising the audio-absent fallback of lines 114-124. -/
def envNoAudio : Env := ⟨whichC, fun _ a fs => (0, fs ++ extrasNoAudio a), "T"⟩

/-- An environment whose video download (step 2) fails with return code 1. -/
def envVidFail : Env :=
  ⟨whichC, fun _ a fs => if a = vidArgvC then (1, fs) else (0, fs ++ extrasOK a), "T"⟩

/-- A healthy environment except that the format-listing step (step 1)
returns code 1. -/
def envListFail : Env :=
  ⟨whichC, fun _ a fs => (if a = listArgvC then 1 else 0, fs ++ extrasOK a), "T"⟩

/-- An environment with an empty PATH: no tool resolves. -/
def envNoTools : Env := ⟨fun _ => none, fun _ _ fs => (0, fs), "T"⟩

/-! Basic facts about the filesystem model. -/

theorem hasFile_append_left {fs : FS} (l : FS) {p : FPath}
    (h : FS.hasFile fs p = true) : FS.hasFile (fs ++ l) p = true := by
  induction fs with
  | nil => simp [FS.hasFile, FS.find] at h
  | cons e rest ih =>
    by_cases hq : e.1 = p
    · simp [FS.hasFile, FS.find, hq]
    · simp only [FS.hasFile, FS.find, hq, if_false, List.cons_append] at h ⊢
      exact ih h

theorem hasFile_append_right (fs : FS) {l : FS} {p : FPath}
    (h : FS.hasFile l p = true) : FS.hasFile (fs ++ l) p = true := by
  induction fs with
  | nil => simpa using h
  | cons e rest ih =>
    by_cases hq : e.1 = p
    · simp [FS.hasFile, FS.find, hq]
    · simp only [FS.hasFile, FS.find, hq, if_false, List.cons_append] at ih ⊢
      exact ih

theorem fsIncl_refl (fs : FS) : FsIncl fs fs := fun _ h => h

theorem fsIncl_trans {a b c : FS} (h1 : FsIncl a b) (h2 : FsIncl b c) :
    FsIncl a c := fun p h => h2 p (h1 p h)

theorem fsIncl_append (fs l : FS) : FsIncl fs (fs ++ l) :=
  fun _ h => hasFile_append_left l h

theorem fsIncl_set (fs : FS) (p : FPath) (v : String) :
    FsIncl fs (FS.set fs p v) := by
  intro q h
  by_cases hq : p = q
  · simp [FS.set, FS.hasFile, FS.find, hq]
  · simpa [FS.set, FS.hasFile, FS.find, hq] using h

theorem hasFile_mem {fs : FS} {p : FPath} (h : FS.hasFile fs p = true) :
    ∃ e, e ∈ fs ∧ e.1 = p := by
  induction fs with
  | nil => simp [FS.hasFile, FS.find] at h
  | cons e rest ih =>
    by_cases hq : e.1 = p
    · exact ⟨e, List.mem_cons_self .., hq⟩
    · simp only [FS.hasFile, FS.find, hq, if_false] at h
      obtain ⟨e2, he2, hk⟩ := ih h
      exact ⟨e2, List.mem_cons_of_mem _ he2, hk⟩

/-- Whenever the encrypted video file exists, it is itself a candidate of the
fallback search at lines 116-117: its basename matches `*.mp4` and the only
excluded basename is that of `video.decrypted.mp4`. -/
theorem videoEnc_mem_candidates {fs : FS}
    (h : FS.hasFile fs videoEncP = true) : videoEncP ∈ mergedCandidates fs := by
  obtain ⟨e, he, hk⟩ := hasFile_mem h
  have hglob : videoEncP ∈ globMp4 fs := by
    refine List.mem_map.mpr ⟨e, List.mem_filter.mpr ⟨he, ?_⟩, hk⟩
    rw [hk]
    decide
  exact List.mem_filter.mpr ⟨hglob, by decide⟩

theorem fsMono_envOK : FsMono envOK :=
  fun _ a fs => fsIncl_append fs (extrasOK a)

theorem fsMono_envNoAudio : FsMono envNoAudio :=
  fun _ a fs => fsIncl_append fs (extrasNoAudio a)

theorem fsMono_envListFail : FsMono envListFail :=
  fun _ a fs => fsIncl_append fs (extrasOK a)

/-! Structural lemmas about the pipeline steps. -/

theorem mergeStep_noCandidate (env : Env) (ff td : String) (fs : FS)
    (cs : List Call) (es : List Msg) (h : Msg.noCandidate ∉ es) :
    Msg.noCandidate ∉ (mergeStep env ff td fs cs es).stderr := by
  simp only [mergeStep]
  split
  · split
    · simp_all
    · simpa using h
  · split
    · split
      · simpa using h
      · simp_all
    · simp_all

theorem decryptAudioPart_noCandidate (env : Env) (mp4d ff td : String) (fs : FS)
    (cs : List Call) (es : List Msg) (h : Msg.noCandidate ∉ es)
    (hc : FS.hasFile fs audioEncP = false → mergedCandidates fs ≠ []) :
    Msg.noCandidate ∉ (decryptAudioPart env mp4d ff td fs cs es).stderr := by
  simp only [decryptAudioPart]
  split
  · split
    · simp_all
    · exact mergeStep_noCandidate _ _ _ _ _ _ h
  · rename_i hA
    split
    · rename_i hm
      exact absurd hm (hc (by simpa using hA))
    · split
      · simp_all
      · exact mergeStep_noCandidate _ _ _ _ _ _ h

theorem decryptStep_noCandidate (env : Env) (mp4d ff td : String) (fs : FS)
    (cs : List Call) (es : List Msg) (hE : FsMono env)
    (hv : FS.hasFile fs videoEncP = true) (h : Msg.noCandidate ∉ es) :
    Msg.noCandidate ∉ (decryptStep env mp4d ff td fs cs es).stderr := by
  unfold decryptStep
  rw [if_pos hv]
  dsimp only
  split
  · simp_all
  · refine decryptAudioPart_noCandidate _ _ _ _ _ _ _ h (fun _ => ?_)
    exact List.ne_nil_of_mem
      (videoEnc_mem_candidates (hE Tool.mp4decrypt _ fs videoEncP hv))

theorem mergeStep_calls (env : Env) (ff td : String) (fs : FS) (cs : List Call)
    (es : List Msg) (c : Call) (h : c ∈ (mergeStep env ff td fs cs es).calls) :
    c ∈ cs ∨ c.tool = Tool.ffmpeg := by
  simp only [mergeStep] at h
  split at h
  · split at h <;>
    · rcases List.mem_append.mp h with h1 | h2
      · exact Or.inl h1
      · rcases List.mem_singleton.mp h2 with rfl
        exact Or.inr rfl
  · split at h
    · split at h
      · exact Or.inl h
      · exact Or.inl h
    · exact Or.inl h

theorem decryptAudioPart_calls (env : Env) (mp4d ff td : String) (fs : FS)
    (cs : List Call) (es : List Msg) (c : Call)
    (h : c ∈ (decryptAudioPart env mp4d ff td fs cs es).calls) :
    c ∈ cs ∨ (c.tool = Tool.mp4decrypt ∧ ∃ i o, c.argv = decArgv mp4d i o) ∨
      c.tool = Tool.ffmpeg := by
  simp only [decryptAudioPart] at h
  split at h
  · split at h
    · rcases List.mem_append.mp h with h1 | h2
      · exact Or.inl h1
      · rcases List.mem_singleton.mp h2 with rfl
        exact Or.inr (Or.inl ⟨rfl, _, _, rfl⟩)
    · rcases mergeStep_calls _ _ _ _ _ _ _ h with h1 | h2
      · rcases List.mem_append.mp h1 with g1 | g2
        · exact Or.inl g1
        · rcases List.mem_singleton.mp g2 with rfl
          exact Or.inr (Or.inl ⟨rfl, _, _, rfl⟩)
      · exact Or.inr (Or.inr h2)
  · split at h
    · exact Or.inl h
    · split at h
      · rcases List.mem_append.mp h with h1 | h2
        · exact Or.inl h1
        · rcases List.mem_singleton.mp h2 with rfl
          exact Or.inr (Or.inl ⟨rfl, _, _, rfl⟩)
      · rcases mergeStep_calls _ _ _ _ _ _ _ h with h1 | h2
        · rcases List.mem_append.mp h1 with g1 | g2
          · exact Or.inl g1
          · rcases List.mem_singleton.mp g2 with rfl
            exact Or.inr (Or.inl ⟨rfl, _, _, rfl⟩)
        · exact Or.inr (Or.inr h2)

theorem decryptStep_calls (env : Env) (mp4d ff td : String) (fs : FS)
    (cs : List Call) (es : List Msg) (c : Call)
    (h : c ∈ (decryptStep env mp4d ff td fs cs es).calls) :
    c ∈ cs ∨ (c.tool = Tool.mp4decrypt ∧ ∃ i o, c.argv = decArgv mp4d i o) ∨
      c.tool = Tool.ffmpeg := by
  simp only [decryptStep] at h
  split at h
  · split at h
    · rcases List.mem_append.mp h with h1 | h2
      · exact Or.inl h1
      · rcases List.mem_singleton.mp h2 with rfl
        exact Or.inr (Or.inl ⟨rfl, _, _, rfl⟩)
    · rcases decryptAudioPart_calls _ _ _ _ _ _ _ _ h with h1 | h2
      · rcases List.mem_append.mp h1 with g1 | g2
        · exact Or.inl g1
        · rcases List.mem_singleton.mp g2 with rfl
          exact Or.inr (Or.inl ⟨rfl, _, _, rfl⟩)
      · exact Or.inr h2
  · exact decryptAudioPart_calls _ _ _ _ _ _ _ _ h

theorem mergeStep_calls_mono (env : Env) (ff td : String) (fs : FS)
    (cs : List Call) (es : List Msg) (c : Call) (h : c ∈ cs) :
    c ∈ (mergeStep env ff td fs cs es).calls := by
  simp only [mergeStep]
  split
  · split
    · exact List.mem_append_left _ h
    · exact List.mem_append_left _ h
  · split
    · split
      · exact h
      · exact h
    · exact h

theorem decryptAudioPart_calls_mono (env : Env) (mp4d ff td : String) (fs : FS)
    (cs : List Call) (es : List Msg) (c : Call) (h : c ∈ cs) :
    c ∈ (decryptAudioPart env mp4d ff td fs cs es).calls := by
  simp only [decryptAudioPart]
  split
  · split
    · exact List.mem_append_left _ h
    · exact mergeStep_calls_mono _ _ _ _ _ _ _ (List.mem_append_left _ h)
  · split
    · exact h
    · split
      · exact List.mem_append_left _ h
      · exact mergeStep_calls_mono _ _ _ _ _ _ _ (List.mem_append_left _ h)

theorem decryptStep_calls_mono (env : Env) (mp4d ff td : String) (fs : FS)
    (cs : List Call) (es : List Msg) (c : Call) (h : c ∈ cs) :
    c ∈ (decryptStep env mp4d ff td fs cs es).calls := by
  simp only [decryptStep]
  split
  · split
    · exact List.mem_append_left _ h
    · exact decryptAudioPart_calls_mono _ _ _ _ _ _ _ _ (List.mem_append_left _ h)
  · exact decryptAudioPart_calls_mono _ _ _ _ _ _ _ _ h

theorem mergeStep_exit01 (env : Env) (ff td : String) (fs : FS) (cs : List Call)
    (es : List Msg) :
    (mergeStep env ff td fs cs es).exitCode = 0 ∨
      (mergeStep env ff td fs cs es).exitCode = 1 := by
  simp only [mergeStep]
  split
  · split
    · exact Or.inr rfl
    · exact Or.inl rfl
  · split
    · split
      · exact Or.inl rfl
      · exact Or.inr rfl
    · exact Or.inr rfl

theorem decryptAudioPart_exit01 (env : Env) (mp4d ff td : String) (fs : FS)
    (cs : List Call) (es : List Msg) :
    (decryptAudioPart env mp4d ff td fs cs es).exitCode = 0 ∨
      (decryptAudioPart env mp4d ff td fs cs es).exitCode = 1 := by
  simp only [decryptAudioPart]
  split
  · split
    · exact Or.inr rfl
    · exact mergeStep_exit01 _ _ _ _ _ _
  · split
    · exact Or.inr rfl
    · split
      · exact Or.inr rfl
      · exact mergeStep_exit01 _ _ _ _ _ _

theorem decryptStep_exit01 (env : Env) (mp4d ff td : String) (fs : FS)
    (cs : List Call) (es : List Msg) :
    (decryptStep env mp4d ff td fs cs es).exitCode = 0 ∨
      (decryptStep env mp4d ff td fs cs es).exitCode = 1 := by
  simp only [decryptStep]
  split
  · split
    · exact Or.inr rfl
    · exact decryptAudioPart_exit01 _ _ _ _ _ _ _
  · exact decryptAudioPart_exit01 _ _ _ _ _ _ _

theorem main_exit01 (env : Env) (fs0 : FS) :
    (main env fs0).exitCode = 0 ∨ (main env fs0).exitCode = 1 := by
  simp only [main]
  split
  · exact Or.inr rfl
  · split
    · exact Or.inr rfl
    · split
      · exact Or.inr rfl
      · split
        · exact Or.inr rfl
        · split
          · exact Or.inr rfl
          · split
            · exact Or.inr rfl
            · exact decryptStep_exit01 _ _ _ _ _ _ _

theorem mergeStep_exit0_rc (env : Env) (ff td : String) (fs : FS)
    (cs : List Call) (es : List Msg) :
    (mergeStep env ff td fs cs es).exitCode = 0 →
      ∀ c ∈ (mergeStep env ff td fs cs es).calls, c ∈ cs ∨ c.rc = 0 := by
  simp only [mergeStep]
  split
  · split
    · intro h0; simp at h0
    · rename_i hrc
      intro _ c hc
      rcases List.mem_append.mp hc with h1 | h2
      · exact Or.inl h1
      · rcases List.mem_singleton.mp h2 with rfl
        exact Or.inr (not_ne_iff.mp hrc)
  · split
    · split
      · intro _ c hc; exact Or.inl hc
      · intro h0; simp at h0
    · intro h0; simp at h0

theorem decryptAudioPart_exit0_rc (env : Env) (mp4d ff td : String) (fs : FS)
    (cs : List Call) (es : List Msg) :
    (decryptAudioPart env mp4d ff td fs cs es).exitCode = 0 →
      ∀ c ∈ (decryptAudioPart env mp4d ff td fs cs es).calls, c ∈ cs ∨ c.rc = 0 := by
  simp only [decryptAudioPart]
  split
  · split
    · intro h0; simp at h0
    · rename_i hrc
      intro h0 c hc
      rcases mergeStep_exit0_rc _ _ _ _ _ _ h0 c hc with h1 | h2
      · rcases List.mem_append.mp h1 with g1 | g2
        · exact Or.inl g1
        · rcases List.mem_singleton.mp g2 with rfl
          exact Or.inr (not_ne_iff.mp hrc)
      · exact Or.inr h2
  · split
    · intro _ c hc; exact Or.inl hc
    · split
      · intro h0; simp at h0
      · rename_i hrc
        intro h0 c hc
        rcases mergeStep_exit0_rc _ _ _ _ _ _ h0 c hc with h1 | h2
        · rcases List.mem_append.mp h1 with g1 | g2
          · exact Or.inl g1
          · rcases List.mem_singleton.mp g2 with rfl
            exact Or.inr (not_ne_iff.mp hrc)
        · exact Or.inr h2

theorem decryptStep_exit0_rc (env : Env) (mp4d ff td : String) (fs : FS)
    (cs : List Call) (es : List Msg) :
    (decryptStep env mp4d ff td fs cs es).exitCode = 0 →
      ∀ c ∈ (decryptStep env mp4d ff td fs cs es).calls, c ∈ cs ∨ c.rc = 0 := by
  simp only [decryptStep]
  split
  · split
    · intro h0; simp at h0
    · rename_i hrc
      intro h0 c hc
      rcases decryptAudioPart_exit0_rc _ _ _ _ _ _ _ h0 c hc with h1 | h2
      · rcases List.mem_append.mp h1 with g1 | g2
        · exact Or.inl g1
        · rcases List.mem_singleton.mp g2 with rfl
          exact Or.inr (not_ne_iff.mp hrc)
      · exact Or.inr h2
  · exact decryptAudioPart_exit0_rc _ _ _ _ _ _ _

theorem mergeStep_incl (env : Env) (ff td : String) (fs : FS) (cs : List Call)
    (es : List Msg) (hE : FsMono env) :
    FsIncl fs (mergeStep env ff td fs cs es).fs := by
  simp only [mergeStep]
  split
  · split
    · exact hE _ _ _
    · exact hE _ _ _
  · split
    · split
      · exact fsIncl_set fs _ _
      · exact fsIncl_refl fs
    · exact fsIncl_refl fs

theorem decryptAudioPart_incl (env : Env) (mp4d ff td : String) (fs : FS)
    (cs : List Call) (es : List Msg) (hE : FsMono env) :
    FsIncl fs (decryptAudioPart env mp4d ff td fs cs es).fs := by
  simp only [decryptAudioPart]
  split
  · split
    · exact hE _ _ _
    · exact fsIncl_trans (hE _ _ _) (mergeStep_incl _ _ _ _ _ _ hE)
  · split
    · exact fsIncl_refl fs
    · split
      · exact hE _ _ _
      · exact fsIncl_trans (hE _ _ _) (mergeStep_incl _ _ _ _ _ _ hE)

theorem decryptStep_incl (env : Env) (mp4d ff td : String) (fs : FS)
    (cs : List Call) (es : List Msg) (hE : FsMono env) :
    FsIncl fs (decryptStep env mp4d ff td fs cs es).fs := by
  simp only [decryptStep]
  split
  · split
    · exact hE _ _ _
    · exact fsIncl_trans (hE _ _ _) (decryptAudioPart_incl _ _ _ _ _ _ _ hE)
  · exact decryptAudioPart_incl _ _ _ _ _ _ _ hE

theorem main_incl (env : Env) (fs0 : FS) (hE : FsMono env) :
    FsIncl fs0 (main env fs0).fs := by
  simp only [main]
  split
  · exact fsIncl_refl fs0
  · split
    · exact fsIncl_refl fs0
    · split
      · exact fsIncl_refl fs0
      · split
        · exact fsIncl_trans (hE _ _ _) (hE _ _ _)
        · split
          · exact fsIncl_trans (fsIncl_trans (hE _ _ _) (hE _ _ _)) (hE _ _ _)
          · split
            · exact fsIncl_trans (fsIncl_trans (hE _ _ _) (hE _ _ _)) (hE _ _ _)
            · exact fsIncl_trans
                (fsIncl_trans (fsIncl_trans (hE _ _ _) (hE _ _ _)) (hE _ _ _))
                (decryptStep_incl _ _ _ _ _ _ _ hE)

theorem listArgv_ne_audArgv (yt td : String) : listArgv yt ≠ audArgv yt td := by
  intro h
  have h2 := congrArg List.length h
  simp [listArgv, audArgv] at h2

theorem vidArgv_ne_audArgv (yt td : String) : vidArgv yt td ≠ audArgv yt td := by
  intro h
  have h2 := congrArg (fun l => l.get? 2) h
  simp only [vidArgv, audArgv, List.get?] at h2
  exact absurd (Option.some.inj h2) (by decide)

/-- On a run whose whole pipeline succeeded (exit code 0), every recorded
subprocess other than the format listing returned 0. -/
theorem main_exit0_rc (env : Env) (fs0 : FS) (yt mp4 ff : String)
    (hy : env.which "yt-dlp" = some yt) (hm : env.which "mp4decrypt" = some mp4)
    (hf : env.which "ffmpeg" = some ff) :
    (main env fs0).exitCode = 0 →
      ∀ c ∈ (main env fs0).calls, c.argv = listArgv yt ∨ c.rc = 0 := by
  simp only [main, hy, hm, hf]
  split
  · intro h0; simp at h0
  · split
    · intro h0; simp at h0
    · split
      · intro h0; simp at h0
      · rename_i hrc2 hrc3 hvc
        intro h0 c hc
        rcases decryptStep_exit0_rc _ _ _ _ _ _ _ h0 c hc with h1 | h2
        · rcases List.mem_append.mp h1 with g1 | g2
          · rcases List.mem_append.mp g1 with k1 | k2
            · rcases List.mem_singleton.mp k1 with rfl
              exact Or.inl rfl
            · rcases List.mem_singleton.mp k2 with rfl
              exact Or.inr (not_ne_iff.mp hrc2)
          · rcases List.mem_singleton.mp g2 with rfl
            exact Or.inr (not_ne_iff.mp hrc3)
        · exact Or.inr h2

/-- On a state with both decrypted tracks present whose remux invocation
returns 0 and creates the final output, the merge step exits 0 with the
final output present. -/
theorem mergeStep_success (env : Env) (ff td : String) (fs : FS)
    (cs : List Call) (es : List Msg)
    (hv : FS.hasFile fs videoDecP = true) (ha : FS.hasFile fs audioDecP = true)
    (hrc : (env.exec Tool.ffmpeg
      (mergeArgv ff (FPath.render td videoDecP) (FPath.render td audioDecP)) fs).1 = 0)
    (hout : FS.hasFile (env.exec Tool.ffmpeg
      (mergeArgv ff (FPath.render td videoDecP) (FPath.render td audioDecP)) fs).2
        (FPath.cwd OUTPUT) = true) :
    (mergeStep env ff td fs cs es).exitCode = 0 ∧
      FS.hasFile (mergeStep env ff td fs cs es).fs (FPath.cwd OUTPUT) = true := by
  unfold mergeStep
  rw [if_pos (by simp [hv, ha])]
  dsimp only
  rw [if_neg (by simp [hrc])]
  exact ⟨rfl, hout⟩

/-- When the encrypted audio exists and its decryption returns 0, the audio
side of the decrypt step proceeds into the merge step on the updated
filesystem. -/
theorem decryptAudioPart_audio_eq (env : Env) (mp4d ff td : String) (fs : FS)
    (cs : List Call) (es : List Msg)
    (ha : FS.hasFile fs audioEncP = true)
    (hrc : (env.exec Tool.mp4decrypt
      (decArgv mp4d (FPath.render td audioEncP) (FPath.render td audioDecP)) fs).1 = 0) :
    decryptAudioPart env mp4d ff td fs cs es =
      mergeStep env ff td
        (env.exec Tool.mp4decrypt
          (decArgv mp4d (FPath.render td audioEncP) (FPath.render td audioDecP)) fs).2
        (cs ++ [⟨Tool.mp4decrypt,
          decArgv mp4d (FPath.render td audioEncP) (FPath.render td audioDecP),
          (env.exec Tool.mp4decrypt
            (decArgv mp4d (FPath.render td audioEncP) (FPath.render td audioDecP)) fs).1⟩])
        es := by
  unfold decryptAudioPart
  rw [if_pos ha]
  dsimp only
  rw [if_neg (by simp [hrc])]

/-- When the encrypted video exists and its decryption returns 0, the
decrypt step proceeds into its audio side on the updated filesystem. -/
theorem decryptStep_video_eq (env : Env) (mp4d ff td : String) (fs : FS)
    (cs : List Call) (es : List Msg)
    (hv : FS.hasFile fs videoEncP = true)
    (hrc : (env.exec Tool.mp4decrypt
      (decArgv mp4d (FPath.render td videoEncP) (FPath.render td videoDecP)) fs).1 = 0) :
    decryptStep env mp4d ff td fs cs es =
      decryptAudioPart env mp4d ff td
        (env.exec Tool.mp4decrypt
          (decArgv mp4d (FPath.render td videoEncP) (FPath.render td videoDecP)) fs).2
        (cs ++ [⟨Tool.mp4decrypt,
          decArgv mp4d (FPath.render td videoEncP) (FPath.render td videoDecP),
          (env.exec Tool.mp4decrypt
            (decArgv mp4d (FPath.render td videoEncP) (FPath.render td videoDecP)) fs).1⟩])
        es := by
  unfold decryptStep
  rw [if_pos hv]
  dsimp only
  rw [if_neg (by simp [hrc])]

/-- When the tools resolve, the two downloads return 0 and the encrypted
video exists afterwards, `main` proceeds into the decrypt step. -/
theorem main_eq_decryptStep (env : Env) (fs0 : FS) (yt mp4 ff : String)
    (hy : env.which "yt-dlp" = some yt) (hm : env.which "mp4decrypt" = some mp4)
    (hf : env.which "ffmpeg" = some ff)
    (hrc2 : (env.exec Tool.ytdlp (vidArgv yt env.tmpdir)
      (env.exec Tool.ytdlp (listArgv yt) fs0).2).1 = 0)
    (hrc3 : (env.exec Tool.ytdlp (audArgv yt env.tmpdir)
      (env.exec Tool.ytdlp (vidArgv yt env.tmpdir)
        (env.exec Tool.ytdlp (listArgv yt) fs0).2).2).1 = 0)
    (hve : FS.hasFile
      (env.exec Tool.ytdlp (audArgv yt env.tmpdir)
        (env.exec Tool.ytdlp (vidArgv yt env.tmpdir)
          (env.exec Tool.ytdlp (listArgv yt) fs0).2).2).2 videoEncP = true) :
    main env fs0 =
      decryptStep env mp4 ff env.tmpdir
        (env.exec Tool.ytdlp (audArgv yt env.tmpdir)
          (env.exec Tool.ytdlp (vidArgv yt env.tmpdir)
            (env.exec Tool.ytdlp (listArgv yt) fs0).2).2).2
        ([⟨Tool.ytdlp, listArgv yt, (env.exec Tool.ytdlp (listArgv yt) fs0).1⟩] ++
          [⟨Tool.ytdlp, vidArgv yt env.tmpdir,
            (env.exec Tool.ytdlp (vidArgv yt env.tmpdir)
              (env.exec Tool.ytdlp (listArgv yt) fs0).2).1⟩] ++
          [⟨Tool.ytdlp, audArgv yt env.tmpdir,
            (env.exec Tool.ytdlp (audArgv yt env.tmpdir)
              (env.exec Tool.ytdlp (vidArgv yt env.tmpdir)
                (env.exec Tool.ytdlp (listArgv yt) fs0).2).2).1⟩])
        [] := by
  simp only [main, hy, hm, hf]
  rw [if_neg (by simp [hrc2]), if_neg (by simp [hrc3]), if_neg (by simp [hve])]

/-! The claims. -/

set_option maxRecDepth 400000

/-- C1: when all three tools resolve on the search path and every invoked
subprocess returns 0, creates its expected output file, and removes
nothing, the run creates `final_output.mp4` in the current working
directory and exits with code 0. -/
theorem c1_all_success (env : Env) (fs0 : FS) (yt mp4 ff : String)
    (hy : env.which "yt-dlp" = some yt) (hm : env.which "mp4decrypt" = some mp4)
    (hf : env.which "ffmpeg" = some ff) (hE : FsMono env)
    (hok : ∀ t a fs, (env.exec t a fs).1 = 0)
    (hvid : ∀ fs, FS.hasFile
      (env.exec Tool.ytdlp (vidArgv yt env.tmpdir) fs).2 videoEncP = true)
    (haud : ∀ fs, FS.hasFile
      (env.exec Tool.ytdlp (audArgv yt env.tmpdir) fs).2 audioEncP = true)
    (hdv : ∀ fs, FS.hasFile (env.exec Tool.mp4decrypt
      (decArgv mp4 (FPath.render env.tmpdir videoEncP)
        (FPath.render env.tmpdir videoDecP)) fs).2 videoDecP = true)
    (hda : ∀ fs, FS.hasFile (env.exec Tool.mp4decrypt
      (decArgv mp4 (FPath.render env.tmpdir audioEncP)
        (FPath.render env.tmpdir audioDecP)) fs).2 audioDecP = true)
    (hmg : ∀ fs, FS.hasFile (env.exec Tool.ffmpeg
      (mergeArgv ff (FPath.render env.tmpdir videoDecP)
        (FPath.render env.tmpdir audioDecP)) fs).2 (FPath.cwd OUTPUT) = true) :
    (main env fs0).exitCode = 0 ∧
      FS.hasFile (main env fs0).fs (FPath.cwd OUTPUT) = true := by
  rw [main_eq_decryptStep env fs0 yt mp4 ff hy hm hf (hok _ _ _) (hok _ _ _)
    (hE Tool.ytdlp (audArgv yt env.tmpdir) _ videoEncP (hvid _))]
  rw [decryptStep_video_eq env mp4 ff env.tmpdir _ _ _
    (hE Tool.ytdlp (audArgv yt env.tmpdir) _ videoEncP (hvid _)) (hok _ _ _)]
  rw [decryptAudioPart_audio_eq env mp4 ff env.tmpdir _ _ _
    (hE Tool.mp4decrypt
      (decArgv mp4 (FPath.render env.tmpdir videoEncP)
        (FPath.render env.tmpdir videoDecP)) _ audioEncP (haud _)) (hok _ _ _)]
  exact mergeStep_success env ff env.tmpdir _ _ _
    (hE Tool.mp4decrypt
      (decArgv mp4 (FPath.render env.tmpdir audioEncP)
        (FPath.render env.tmpdir audioDecP)) _ videoDecP (hdv _))
    (hda _) (hok _ _ _) (hmg _)

/-- Witness for C1 at a fully healthy concrete environment. -/
theorem c1_all_success_witness :
    (main envOK []).exitCode = 0 ∧
      FS.hasFile (main envOK []).fs (FPath.cwd OUTPUT) = true :=
  c1_all_success envOK [] "yt" "m" "f" rfl rfl rfl fsMono_envOK
    (fun _ _ _ => rfl)
    (fun fs => hasFile_append_right fs (by decide))
    (fun fs => hasFile_append_right fs (by decide))
    (fun fs => hasFile_append_right fs (by decide))
    (fun fs => hasFile_append_right fs (by decide))
    (fun fs => hasFile_append_right fs (by decide))

/-- C2: the shipped module ends in the stray text `git push origin main`
(line 152), which is not a valid Python statement; the interpreter therefore
fails while loading the module, before `main` is ever called, so no pipeline
step (in particular no subprocess) ever runs and the process exits with
code 1. -/
theorem c2_stray_line_aborts_load (env : Env) (fs0 : FS) :
    bareNameSeqError strayLine = true ∧
      (runScript env fs0).exitCode = 1 ∧ (runScript env fs0).calls = [] ∧
      (runScript env fs0).stderr = [Msg.loadError] ∧
      (runScript env fs0).tmpCreated = false := by
  have h : bareNameSeqError strayLine = true := by decide
  exact ⟨h, by simp [runScript, h], by simp [runScript, h], by simp [runScript, h],
    by simp [runScript, h]⟩

/-- C3: when any of the three executables cannot be resolved on the search
path, the run prints a tool-missing diagnostic to stderr and exits with code
1 before the temporary directory is created and before any subprocess is
invoked. -/
theorem c3_missing_tool_aborts (env : Env) (fs0 : FS)
    (h : env.which "yt-dlp" = none ∨ env.which "mp4decrypt" = none ∨
      env.which "ffmpeg" = none) :
    (main env fs0).exitCode = 1 ∧ (main env fs0).calls = [] ∧
      (main env fs0).tmpCreated = false ∧
      ∃ t, (main env fs0).stderr = [Msg.toolMissing t] := by
  rcases hyt : env.which "yt-dlp" with _ | yt
  · exact ⟨by simp [main, hyt], by simp [main, hyt], by simp [main, hyt],
      "yt-dlp", by simp [main, hyt]⟩
  · rcases hm4 : env.which "mp4decrypt" with _ | m4
    · exact ⟨by simp [main, hyt, hm4], by simp [main, hyt, hm4],
        by simp [main, hyt, hm4], "mp4decrypt", by simp [main, hyt, hm4]⟩
    · rcases hff : env.which "ffmpeg" with _ | f
      · exact ⟨by simp [main, hyt, hm4, hff], by simp [main, hyt, hm4, hff],
          by simp [main, hyt, hm4, hff], "ffmpeg", by simp [main, hyt, hm4, hff]⟩
      · rcases h with h | h | h <;> simp_all

/-- Witness for C3 at a concrete environment with an empty PATH. -/
theorem c3_missing_tool_aborts_witness :
    (main envNoTools []).exitCode = 1 ∧ (main envNoTools []).calls = [] ∧
      (main envNoTools []).tmpCreated = false ∧
      ∃ t, (main envNoTools []).stderr = [Msg.toolMissing t] :=
  c3_missing_tool_aborts envNoTools [] (Or.inl rfl)

/-- C5: a run that reaches the audio side of the decrypt step with no
encrypted audio file present and no fallback candidate in the temporary
directory prints the no-candidate diagnostic to stderr and exits with code
1 (lines 114-124). -/
theorem c5_no_candidate_fails (env : Env) (mp4 ff td : String) (fs : FS)
    (cs : List Call) (es : List Msg)
    (ha : FS.hasFile fs audioEncP = false)
    (hc : mergedCandidates fs = []) :
    (decryptAudioPart env mp4 ff td fs cs es).exitCode = 1 ∧
      Msg.noCandidate ∈ (decryptAudioPart env mp4 ff td fs cs es).stderr := by
  unfold decryptAudioPart
  rw [if_neg (by simp [ha]), hc]
  exact ⟨rfl, by simp⟩

/-- Witness for C5 at a concrete state with an empty temporary directory. -/
theorem c5_no_candidate_fails_witness :
    (decryptAudioPart envOK "m" "f" "T" [] [] []).exitCode = 1 ∧
      Msg.noCandidate ∈ (decryptAudioPart envOK "m" "f" "T" [] [] []).stderr :=
  c5_no_candidate_fails envOK "m" "f" "T" [] [] [] rfl rfl

/-- C7: a run that reaches the merge step with the decrypted video present
and the decrypted audio absent copies the decrypted video verbatim to the
final output path (lines 130-133): the run exits 0, the final output's
contents equal the decrypted video's contents, and no further subprocess is
invoked. -/
theorem c7_copy_video_only (env : Env) (ff td : String) (fs : FS)
    (cs : List Call) (es : List Msg)
    (hv : FS.hasFile fs videoDecP = true)
    (ha : FS.hasFile fs audioDecP = false) :
    (mergeStep env ff td fs cs es).exitCode = 0 ∧
      FS.find (mergeStep env ff td fs cs es).fs (FPath.cwd OUTPUT) =
        FS.find fs videoDecP ∧
      (mergeStep env ff td fs cs es).calls = cs := by
  unfold mergeStep
  rw [if_neg (by simp [hv, ha]), if_pos (by simp [hv, ha])]
  rcases hfind : FS.find fs videoDecP with _ | c
  · rw [FS.hasFile, hfind] at hv
    simp at hv
  · exact ⟨rfl, by simp [FS.set, FS.find], rfl⟩

/-- Witness for C7 at a concrete state holding only the decrypted video. -/
theorem c7_copy_video_only_witness :
    (mergeStep envOK "f" "T" [(videoDecP, "plainvideo")] [] []).exitCode = 0 ∧
      FS.find (mergeStep envOK "f" "T" [(videoDecP, "plainvideo")] [] []).fs
          (FPath.cwd OUTPUT) =
        FS.find [(videoDecP, "plainvideo")] videoDecP ∧
      (mergeStep envOK "f" "T" [(videoDecP, "plainvideo")] [] []).calls = [] :=
  c7_copy_video_only envOK "f" "T" [(videoDecP, "plainvideo")] [] []
    (by decide) (by decide)

/-- C10: the program never deletes the temporary directory or anything in
it: provided the invoked tools themselves never remove files, every file
present at the start of the run, at the entry of the decrypt step, or at
the entry of the merge step, is still present in the final filesystem on
every exit path. -/
theorem c10_never_deletes (env : Env) (fs0 fs : FS) (mp4 ff td : String)
    (cs : List Call) (es : List Msg) (hE : FsMono env) :
    FsIncl fs (mergeStep env ff td fs cs es).fs ∧
      FsIncl fs (decryptAudioPart env mp4 ff td fs cs es).fs ∧
      FsIncl fs (decryptStep env mp4 ff td fs cs es).fs ∧
      FsIncl fs0 (main env fs0).fs :=
  ⟨mergeStep_incl _ _ _ _ _ _ hE, decryptAudioPart_incl _ _ _ _ _ _ _ hE,
    decryptStep_incl _ _ _ _ _ _ _ hE, main_incl _ _ hE⟩

/-- C4: when the video download (step 2) fails, the run exits with code 1
and neither the decryptor, nor the muxer, nor the audio download is ever
invoked. -/
theorem c4_video_download_failure (env : Env) (fs0 : FS) (yt mp4 ff : String)
    (hy : env.which "yt-dlp" = some yt) (hm : env.which "mp4decrypt" = some mp4)
    (hf : env.which "ffmpeg" = some ff)
    (hfail : ∀ fs, (env.exec Tool.ytdlp (vidArgv yt env.tmpdir) fs).1 ≠ 0) :
    (main env fs0).exitCode = 1 ∧
      ∀ c ∈ (main env fs0).calls,
        c.tool ≠ Tool.mp4decrypt ∧ c.tool ≠ Tool.ffmpeg ∧
          c.argv ≠ audArgv yt env.tmpdir := by
  simp only [main, hy, hm, hf]
  rw [if_pos (hfail _)]
  refine ⟨rfl, ?_⟩
  intro c hc
  rcases List.mem_append.mp hc with h1 | h2
  · rcases List.mem_singleton.mp h1 with rfl
    exact ⟨by simp, by simp, listArgv_ne_audArgv yt env.tmpdir⟩
  · rcases List.mem_singleton.mp h2 with rfl
    exact ⟨by simp, by simp, vidArgv_ne_audArgv yt env.tmpdir⟩

/-- Witness for C4 at a concrete environment whose video download returns 1. -/
theorem c4_video_download_failure_witness :
    (main envVidFail []).exitCode = 1 ∧
      ∀ c ∈ (main envVidFail []).calls,
        c.tool ≠ Tool.mp4decrypt ∧ c.tool ≠ Tool.ffmpeg ∧
          c.argv ≠ audArgv "yt" envVidFail.tmpdir :=
  c4_video_download_failure envVidFail [] "yt" "m" "f" rfl rfl rfl
    (fun _ => Nat.one_ne_zero)

/-- C6: the audio-absent fallback search (lines 116-117) keeps every `*.mp4`
in the temporary directory except the decrypted-video name, so the
encrypted video downloaded earlier is always a candidate: provided the
tools never remove files, the no-candidate fatal branch (lines 122-124) is
unreachable — its diagnostic can never appear — and, as the concrete run
`envNoAudio` shows, the first candidate can be the encrypted video itself,
so the same mp4decrypt argv (input `video.encrypted.mp4`, output
`video.decrypted.mp4`) is run a second time, overwriting the decrypted
video, and the run then exits 0. -/
theorem c6_fallback_unreachable (env : Env) (fs0 : FS) (hE : FsMono env) :
    Msg.noCandidate ∉ (main env fs0).stderr ∧
      (main envNoAudio []).calls.count ⟨Tool.mp4decrypt, decVidArgvC, 0⟩ = 2 ∧
      (main envNoAudio []).exitCode = 0 := by
  refine ⟨?_, by decide, by decide⟩
  rcases hyt : env.which "yt-dlp" with _ | yt
  · simp [main, hyt]
  · rcases hm4 : env.which "mp4decrypt" with _ | m4
    · simp [main, hyt, hm4]
    · rcases hff : env.which "ffmpeg" with _ | f
      · simp [main, hyt, hm4, hff]
      · simp only [main, hyt, hm4, hff]
        split
        · simp
        · split
          · simp
          · split
            · simp
            · rename_i h1 h2 hvc
              refine decryptStep_noCandidate _ _ _ _ _ _ _ hE ?_ (List.not_mem_nil _)
              simpa using hvc

/-- Witness for C6 at the concrete audio-absent environment. -/
theorem c6_fallback_unreachable_witness :
    Msg.noCandidate ∉ (main envNoAudio []).stderr ∧
      (main envNoAudio []).calls.count ⟨Tool.mp4decrypt, decVidArgvC, 0⟩ = 2 ∧
      (main envNoAudio []).exitCode = 0 :=
  c6_fallback_unreachable envNoAudio [] fsMono_envNoAudio

/-- C8: every invocation of the decryption tool carries the full key set:
`key_args` is exactly the five configured KID:KEY pairs in `KEYS` order,
each behind a `--key` flag, and every mp4decrypt call the program can ever
record — video decrypt, audio decrypt, or fallback decrypt — has argv
`[mp4decrypt] ++ key_args ++ [input, output]`. -/
theorem c8_all_keys_every_decrypt (env : Env) (fs0 : FS) (mp4 : String)
    (hm : env.which "mp4decrypt" = some mp4) :
    keyArgs =
      ["--key", "833cac330e3f5243bb92b6b1a1f0b830:33eb631c7784af4a6cc9267ed8cbffb0",
       "--key", "af975c9bf15c521e8ca7946fa5d846eb:b5c26089aca357bfcbff3d6b4a0480a9",
       "--key", "4b4c8d2ef8885b7db7e8cbaa35157229:f860fe5061896ee121bf09b8050fea67",
       "--key", "6f5bc63cfb4c527983544e2be87c3ee3:b626a566974683745075058387989f9b",
       "--key", "829e92634faa53d3825d17710a11d8e7:68287246dd16c51cc36232d577f4108a"] ∧
      ∀ c ∈ (main env fs0).calls, c.tool = Tool.mp4decrypt →
        ∃ i o, c.argv = [mp4] ++ keyArgs ++ [i, o] := by
  refine ⟨rfl, ?_⟩
  intro c hc htool
  rcases hyt : env.which "yt-dlp" with _ | yt
  · simp only [main, hyt] at hc
    exact absurd hc (List.not_mem_nil c)
  · rcases hff : env.which "ffmpeg" with _ | f
    · simp only [main, hyt, hm, hff] at hc
      exact absurd hc (List.not_mem_nil c)
    · simp only [main, hyt, hm, hff] at hc
      split at hc
      · rcases List.mem_append.mp hc with h1 | h2
        · rcases List.mem_singleton.mp h1 with rfl
          simp at htool
        · rcases List.mem_singleton.mp h2 with rfl
          simp at htool
      · split at hc
        · rcases List.mem_append.mp hc with h1 | h2
          · rcases List.mem_append.mp h1 with k1 | k2
            · rcases List.mem_singleton.mp k1 with rfl
              simp at htool
            · rcases List.mem_singleton.mp k2 with rfl
              simp at htool
          · rcases List.mem_singleton.mp h2 with rfl
            simp at htool
        · split at hc
          · rcases List.mem_append.mp hc with h1 | h2
            · rcases List.mem_append.mp h1 with k1 | k2
              · rcases List.mem_singleton.mp k1 with rfl
                simp at htool
              · rcases List.mem_singleton.mp k2 with rfl
                simp at htool
            · rcases List.mem_singleton.mp h2 with rfl
              simp at htool
          · rcases decryptStep_calls _ _ _ _ _ _ _ _ hc with h1 | ⟨_, i, o, hargv⟩ | h2
            · rcases List.mem_append.mp h1 with g1 | g2
              · rcases List.mem_append.mp g1 with k1 | k2
                · rcases List.mem_singleton.mp k1 with rfl
                  simp at htool
                · rcases List.mem_singleton.mp k2 with rfl
                  simp at htool
              · rcases List.mem_singleton.mp g2 with rfl
                simp at htool
            · exact ⟨i, o, hargv⟩
            · rw [htool] at h2
              exact absurd h2 (by decide)

/-- Witness for C8 at the healthy concrete environment. -/
theorem c8_all_keys_every_decrypt_witness :
    keyArgs =
      ["--key", "833cac330e3f5243bb92b6b1a1f0b830:33eb631c7784af4a6cc9267ed8cbffb0",
       "--key", "af975c9bf15c521e8ca7946fa5d846eb:b5c26089aca357bfcbff3d6b4a0480a9",
       "--key", "4b4c8d2ef8885b7db7e8cbaa35157229:f860fe5061896ee121bf09b8050fea67",
       "--key", "6f5bc63cfb4c527983544e2be87c3ee3:b626a566974683745075058387989f9b",
       "--key", "829e92634faa53d3825d17710a11d8e7:68287246dd16c51cc36232d577f4108a"] ∧
      ∀ c ∈ (main envOK []).calls, c.tool = Tool.mp4decrypt →
        ∃ i o, c.argv = ["m"] ++ keyArgs ++ [i, o] :=
  c8_all_keys_every_decrypt envOK [] "m" rfl

/-- C9: a failure of the format-listing step is ignored — the video download
is always attempted once the tools resolve — and the listing step is the
only subprocess whose failure does not force exit code 1: any other
recorded call with a non-zero return code makes the run exit 1.  The
concrete run `envListFail`, whose listing returns 1, still exits 0. -/
theorem c9_listing_failure_nonfatal (env : Env) (fs0 : FS) (yt mp4 ff : String)
    (hy : env.which "yt-dlp" = some yt) (hm : env.which "mp4decrypt" = some mp4)
    (hf : env.which "ffmpeg" = some ff) :
    (∃ c ∈ (main env fs0).calls, c.tool = Tool.ytdlp ∧
      c.argv = vidArgv yt env.tmpdir) ∧
      (∀ c ∈ (main env fs0).calls, c.rc ≠ 0 → c.argv ≠ listArgv yt →
        (main env fs0).exitCode = 1) ∧
      (main envListFail []).exitCode = 0 ∧
      (⟨Tool.ytdlp, listArgvC, 1⟩ : Call) ∈ (main envListFail []).calls := by
  refine ⟨?_, ?_, by decide, by decide⟩
  · simp only [main, hy, hm, hf]
    split
    · exact ⟨_, List.mem_append_right _ (List.mem_singleton.mpr rfl), rfl, rfl⟩
    · split
      · exact ⟨_, List.mem_append_left _
          (List.mem_append_right _ (List.mem_singleton.mpr rfl)), rfl, rfl⟩
      · split
        · exact ⟨_, List.mem_append_left _
            (List.mem_append_right _ (List.mem_singleton.mpr rfl)), rfl, rfl⟩
        · exact ⟨_, decryptStep_calls_mono _ _ _ _ _ _ _ _
            (List.mem_append_left _
              (List.mem_append_right _ (List.mem_singleton.mpr rfl))), rfl, rfl⟩
  · intro c hc hrc hargv
    rcases main_exit01 env fs0 with h0 | h1
    · rcases main_exit0_rc env fs0 yt mp4 ff hy hm hf h0 c hc with hl | hr
      · exact absurd hl hargv
      · exact absurd hr hrc
    · exact h1

/-- Witness for C9 at the concrete environment whose listing step fails. -/
theorem c9_listing_failure_nonfatal_witness :
    (∃ c ∈ (main envListFail []).calls, c.tool = Tool.ytdlp ∧
      c.argv = vidArgv "yt" envListFail.tmpdir) ∧
      (∀ c ∈ (main envListFail []).calls, c.rc ≠ 0 → c.argv ≠ listArgv "yt" →
        (main envListFail []).exitCode = 1) ∧
      (main envListFail []).exitCode = 0 ∧
      (⟨Tool.ytdlp, listArgvC, 1⟩ : Call) ∈ (main envListFail []).calls :=
  c9_listing_failure_nonfatal envListFail [] "yt" "m" "f" rfl rfl rfl

/-- Witness for C10 at the healthy concrete environment. -/
theorem c10_never_deletes_witness :
    FsIncl [(videoDecP, "keep")] (mergeStep envOK "f" "T" [(videoDecP, "keep")] [] []).fs ∧
      FsIncl [(videoDecP, "keep")]
        (decryptAudioPart envOK "m" "f" "T" [(videoDecP, "keep")] [] []).fs ∧
      FsIncl [(videoDecP, "keep")]
        (decryptStep envOK "m" "f" "T" [(videoDecP, "keep")] [] []).fs ∧
      FsIncl [] (main envOK []).fs :=
  c10_never_deletes envOK [] [(videoDecP, "keep")] "m" "f" "T" [] [] fsMono_envOK

end DownPy
